import Mathlib

/-!
Verification of the kermit repository's core logic against its specification.

The definitions below are shallow embeddings of the Python sources:
  * `src/utils.py` / `kermit_sdr/utils.py` — `Interval`, the S-unit scales,
    `GpsReadQuality`, `GpsResponse.is_valid_read`;
  * `src/collect_data.py` — `get_s_unit_from_db`, `dbfft`, `read_signal_str`,
    `get_gga_signal_from_serial`, `save_read_to_file`, the startup source
    dispatch of `main`;
  * `src/generate_map.py` — the deduplication block of `main`.

Numeric values that Python holds in floating point are modelled as exact
rationals (`ℚ`) where the code is discrete/decidable, and as reals (`ℝ`)
for the spectral pipeline, whose FFT involves irrational roots of unity.
IEEE special values produced by `np.log10(0)` are modelled explicitly by
the `FloatV` type.
-/

namespace Kermit

/-- Interval class from `src/utils.py`: a range between two numbers used for
the S-unit scales.  The Python attribute `end` is a Lean keyword, so the
field is called `stop` here. -/
structure Interval where
  start : ℚ
  stop : ℚ
deriving DecidableEq, Repr

/-- Membership test from `Interval.in_interval`:
`val > self.start and val <= self.end`. -/
def Interval.in_interval (i : Interval) (val : ℚ) : Bool :=
  decide (val > i.start ∧ val ≤ i.stop)

/-- S-unit scale for HF listening, from `src/utils.py` (`S_UNIT_SCALE_HF`),
in dictionary insertion order. -/
def S_UNIT_SCALE_HF : List (String × Interval) :=
  [("S0", ⟨-999, -48⟩),
   ("S1", ⟨-48, -42⟩),
   ("S2", ⟨-42, -36⟩),
   ("S3", ⟨-36, -30⟩),
   ("S4", ⟨-30, -24⟩),
   ("S5", ⟨-24, -18⟩),
   ("S6", ⟨-18, -12⟩),
   ("S7", ⟨-12, -6⟩),
   ("S8", ⟨-6, 0⟩),
   ("S9", ⟨0, 6⟩),
   ("S10", ⟨6, 12⟩),
   ("S11", ⟨12, 18⟩),
   ("S12", ⟨18, 24⟩),
   ("S too much", ⟨24, 999⟩)]

/-- S-unit scale for VHF listening, from `src/utils.py` (`S_UNIT_SCALE_VHF`);
textually identical to the HF table. -/
def S_UNIT_SCALE_VHF : List (String × Interval) :=
  [("S0", ⟨-999, -48⟩),
   ("S1", ⟨-48, -42⟩),
   ("S2", ⟨-42, -36⟩),
   ("S3", ⟨-36, -30⟩),
   ("S4", ⟨-30, -24⟩),
   ("S5", ⟨-24, -18⟩),
   ("S6", ⟨-18, -12⟩),
   ("S7", ⟨-12, -6⟩),
   ("S8", ⟨-6, 0⟩),
   ("S9", ⟨0, 6⟩),
   ("S10", ⟨6, 12⟩),
   ("S11", ⟨12, 18⟩),
   ("S12", ⟨18, 24⟩),
   ("S too much", ⟨24, 999⟩)]

/-- Listening frequency in Hz from `src/config.py`:
`LISTENING_FREQUENCY = 146520000`. -/
def LISTENING_FREQUENCY : ℚ := 146520000

/-- Scale selection from `src/config.py`:
`S_UNIT_SCALE = S_UNIT_SCALE_VHF if LISTENING_FREQUENCY >= 3e7 else S_UNIT_SCALE_HF`. -/
def S_UNIT_SCALE : List (String × Interval) :=
  if LISTENING_FREQUENCY ≥ 30000000 then S_UNIT_SCALE_VHF else S_UNIT_SCALE_HF

/-- Classification from `src/collect_data.py` (`get_s_unit_from_db`): scan the
scale in insertion order, return the key of the first interval containing the
value, else the literal string `"Unknown S-unit"`. -/
def get_s_unit_from_db (signal_strength_db : ℚ) : String :=
  match S_UNIT_SCALE.find? (fun kv => kv.2.in_interval signal_strength_db) with
  | some kv => kv.1
  | none => "Unknown S-unit"

/-- Chained scales: every earlier interval ends no later than every later
interval starts.  The concrete S-unit tables satisfy this by `decide`. -/
def ScaleChained (l : List (String × Interval)) : Prop :=
  l.Pairwise (fun a b => a.2.stop ≤ b.2.start)

theorem in_interval_iff (i : Interval) (v : ℚ) :
    i.in_interval v = true ↔ i.start < v ∧ v ≤ i.stop := by
  simp [Interval.in_interval]

/-- On a chained scale, at most one entry's interval contains any value. -/
theorem chained_unique {l : List (String × Interval)} (hl : ScaleChained l)
    {v : ℚ} {e₁ e₂ : String × Interval} (h₁ : e₁ ∈ l) (h₂ : e₂ ∈ l)
    (hv₁ : e₁.2.in_interval v = true) (hv₂ : e₂.2.in_interval v = true) :
    e₁ = e₂ := by
  by_contra hne
  have hpw : l.Pairwise
      (fun a b : String × Interval =>
        ¬(a.2.in_interval v = true ∧ b.2.in_interval v = true)) := by
    refine hl.imp ?_
    intro a b hab hcontra
    rcases hcontra with ⟨ha, hb⟩
    rw [in_interval_iff] at ha hb
    linarith [ha.2, hb.1]
  have hsym : Symmetric
      (fun a b : String × Interval =>
        ¬(a.2.in_interval v = true ∧ b.2.in_interval v = true)) := by
    intro a b hab hcontra
    exact hab ⟨hcontra.2, hcontra.1⟩
  exact (hpw.forall hsym h₁ h₂ hne) ⟨hv₁, hv₂⟩

/-- On a chained scale, the first-match scan returns exactly the entry whose
interval contains the value. -/
theorem find_first_of_chained {l : List (String × Interval)}
    (hl : ScaleChained l) {v : ℚ} {e : String × Interval} (he : e ∈ l)
    (hv : e.2.in_interval v = true) :
    l.find? (fun kv => kv.2.in_interval v) = some e := by
  cases hfind : l.find? (fun kv => kv.2.in_interval v) with
  | none =>
      exfalso
      exact (List.find?_eq_none.mp hfind) e he hv
  | some e' =>
      have he' : e' ∈ l := List.mem_of_find?_eq_some hfind
      have hv' := List.find?_some hfind
      rw [chained_unique hl he' he hv' hv]

theorem s_unit_scale_eq : S_UNIT_SCALE = S_UNIT_SCALE_VHF := by
  simp [S_UNIT_SCALE, LISTENING_FREQUENCY]
  norm_num

theorem s_unit_scale_chained : ScaleChained S_UNIT_SCALE := by
  rw [s_unit_scale_eq]
  unfold ScaleChained S_UNIT_SCALE_VHF
  decide

/-- On the scale in use, a value inside an entry's interval is classified with
that entry's label. -/
theorem get_s_unit_of_mem {e : String × Interval} (he : e ∈ S_UNIT_SCALE)
    {v : ℚ} (h₁ : e.2.start < v) (h₂ : v ≤ e.2.stop) :
    get_s_unit_from_db v = e.1 := by
  unfold get_s_unit_from_db
  rw [find_first_of_chained s_unit_scale_chained he
    ((in_interval_iff e.2 v).mpr ⟨h₁, h₂⟩)]

/-- C2.  For every interval (label, lower, upper) of the scale in use and
every value v with lower < v ≤ upper, `get_s_unit_from_db` returns that
interval's label; moreover no value lies in two distinct scale entries, so a
shared boundary value belongs to exactly one entry (the one whose lower bound
it exceeds). -/
theorem classify_in_range_first_match :
    (∀ e ∈ S_UNIT_SCALE, ∀ v : ℚ, e.2.start < v → v ≤ e.2.stop →
       get_s_unit_from_db v = e.1)
    ∧ (∀ v : ℚ, ∀ e₁ ∈ S_UNIT_SCALE, ∀ e₂ ∈ S_UNIT_SCALE,
       e₁.2.in_interval v = true → e₂.2.in_interval v = true → e₁ = e₂) := by
  constructor
  · intro e he v h₁ h₂
    exact get_s_unit_of_mem he h₁ h₂
  · intro v e₁ h₁ e₂ h₂ hv₁ hv₂
    exact chained_unique s_unit_scale_chained h₁ h₂ hv₁ hv₂

/-- Witness for C2: 3 dB falls in the S9 interval (0, 6] and is classified
"S9"; the boundary value 0 lies only in the S8 entry. -/
theorem classify_in_range_first_match_witness :
    get_s_unit_from_db 3 = "S9" :=
  classify_in_range_first_match.1 ("S9", ⟨0, 6⟩) (by rw [s_unit_scale_eq]; decide)
    3 (by norm_num) (by norm_num)

/-- C4 counterexample.  The lowest range's lower bound is -999 and the highest
range's upper bound is 999; a value below -999 (resp. above 999) matches no
interval and yields "Unknown S-unit", not the edge label, so the sentinel
extremes do not absorb all out-of-table values. -/
theorem classify_edges_counterexample :
    get_s_unit_from_db (-1000) = "Unknown S-unit"
    ∧ get_s_unit_from_db (-1000) ≠ "S0"
    ∧ ((-1000 : ℚ) < -999)
    ∧ get_s_unit_from_db 1000 = "Unknown S-unit"
    ∧ get_s_unit_from_db 1000 ≠ "S too much"
    ∧ ((999 : ℚ) < 1000) := by
  refine ⟨?_, ?_, by norm_num, ?_, ?_, by norm_num⟩ <;>
    simp [get_s_unit_from_db, s_unit_scale_eq, S_UNIT_SCALE_VHF,
      Interval.in_interval] <;> decide

/-- C4 amended.  The sentinel extremes absorb values between the outer bounds:
classification yields "S0" on (-999, -48] and "S too much" on (24, 999];
values at or below -999, or above 999, are covered by no range and yield the
explicit "Unknown S-unit" result rather than failing. -/
theorem classify_edges_amended :
    (∀ v : ℚ, -999 < v → v ≤ -48 → get_s_unit_from_db v = "S0")
    ∧ (∀ v : ℚ, 24 < v → v ≤ 999 → get_s_unit_from_db v = "S too much")
    ∧ (∀ v : ℚ, v ≤ -999 → get_s_unit_from_db v = "Unknown S-unit")
    ∧ (∀ v : ℚ, 999 < v → get_s_unit_from_db v = "Unknown S-unit") := by
  refine ⟨?_, ?_, ?_, ?_⟩
  · intro v h₁ h₂
    exact get_s_unit_of_mem (e := ("S0", ⟨-999, -48⟩))
      (by rw [s_unit_scale_eq]; decide) h₁ h₂
  · intro v h₁ h₂
    exact get_s_unit_of_mem (e := ("S too much", ⟨24, 999⟩))
      (by rw [s_unit_scale_eq]; decide) h₁ h₂
  · intro v h
    unfold get_s_unit_from_db
    rw [List.find?_eq_none.mpr]
    intro a ha
    rw [s_unit_scale_eq] at ha
    fin_cases ha <;> simp [Interval.in_interval] <;> intro h' <;> linarith
  · intro v h
    unfold get_s_unit_from_db
    rw [List.find?_eq_none.mpr]
    intro a ha
    rw [s_unit_scale_eq] at ha
    fin_cases ha <;> simp [Interval.in_interval] <;> intro h' <;> linarith

/-- Witness for C4 amended: -100 is classified "S0", 100 is classified
"S too much", -2000 and 2000 fall outside every range. -/
theorem classify_edges_amended_witness :
    get_s_unit_from_db (-100) = "S0"
    ∧ get_s_unit_from_db 100 = "S too much"
    ∧ get_s_unit_from_db (-2000) = "Unknown S-unit"
    ∧ get_s_unit_from_db 2000 = "Unknown S-unit" :=
  ⟨classify_edges_amended.1 (-100) (by norm_num) (by norm_num),
   classify_edges_amended.2.1 100 (by norm_num) (by norm_num),
   classify_edges_amended.2.2.1 (-2000) (by norm_num),
   classify_edges_amended.2.2.2 2000 (by norm_num)⟩

/-- GPS read quality from `kermit_sdr/utils.py` (`GpsReadQuality`), an
`IntEnum` with values 0 through 8. -/
inductive GpsReadQuality where
  | INVALID
  | GPS_SPS
  | DGPS
  | PPS
  | REAL_TIME_KINEMATIC
  | FLOAT_RTK
  | ESTIMATED
  | MANUAL_INPUT
  | SIMULATED
deriving DecidableEq, Repr

/-- Casting an integer to the `GpsReadQuality` IntEnum; Python raises
`ValueError` outside 0..8, modelled as `none`. -/
def GpsReadQuality.ofInt? (i : ℤ) : Option GpsReadQuality :=
  if i = 0 then some .INVALID
  else if i = 1 then some .GPS_SPS
  else if i = 2 then some .DGPS
  else if i = 3 then some .PPS
  else if i = 4 then some .REAL_TIME_KINEMATIC
  else if i = 5 then some .FLOAT_RTK
  else if i = 6 then some .ESTIMATED
  else if i = 7 then some .MANUAL_INPUT
  else if i = 8 then some .SIMULATED
  else none

/-- GpsResponse from `kermit_sdr/utils.py`: one read from a GPS GGA sentence.
The source stores `lat`/`lng` as strings formatted to five decimals for
output; the numeric values are modelled exactly as rationals here. -/
structure GpsResponse where
  lat : ℚ := 0
  lng : ℚ := 0
  quality : GpsReadQuality := .INVALID
  sat_count : ℤ := 0
  altitude : ℚ := 0
  error : ℚ := 0
  timestamp : String := ""
deriving DecidableEq, Repr

/-- Validity predicate from `GpsResponse.is_valid_read`:
`self.quality != GpsReadQuality.INVALID and self.error < 20 and self.sat_count >= 3`. -/
def GpsResponse.is_valid_read (g : GpsResponse) : Bool :=
  decide (g.quality ≠ GpsReadQuality.INVALID) && decide (g.error < 20)
    && decide (g.sat_count ≥ 3)

/-- C3.  `is_valid_read` is true exactly when the quality is not INVALID, the
dilution of precision is strictly below 20 and at least 3 satellites are in
view; in particular a 2-satellite fix is rejected whatever its quality and
DOP, a fix with DOP exactly 20 is rejected, and a fix with DOP 19.99,
3 satellites and non-invalid quality is accepted. -/
theorem is_valid_read_spec :
    (∀ g : GpsResponse, g.is_valid_read = true ↔
       (g.quality ≠ GpsReadQuality.INVALID ∧ g.error < 20 ∧ g.sat_count ≥ 3))
    ∧ (∀ g : GpsResponse, g.sat_count = 2 → g.is_valid_read = false)
    ∧ (∀ g : GpsResponse, g.error = 20 → g.is_valid_read = false)
    ∧ (∀ g : GpsResponse, g.quality ≠ GpsReadQuality.INVALID →
       g.error = 1999 / 100 → g.sat_count = 3 → g.is_valid_read = true) := by
  refine ⟨?_, ?_, ?_, ?_⟩
  · intro g
    simp [GpsResponse.is_valid_read, and_assoc]
  · intro g h
    simp [GpsResponse.is_valid_read, h]
  · intro g h
    simp [GpsResponse.is_valid_read, h]
  · intro g h₁ h₂ h₃
    simp [GpsResponse.is_valid_read, h₁, h₂, h₃]
    norm_num

/-- Witness for C3 at concrete fixes: satellite-count 2 with otherwise good
quality and DOP is rejected; DOP exactly 20 is rejected; DOP 19.99 with
3 satellites and GPS_SPS quality is accepted. -/
theorem is_valid_read_spec_witness :
    GpsResponse.is_valid_read
        { quality := .GPS_SPS, sat_count := 2, error := 1 } = false
    ∧ GpsResponse.is_valid_read
        { quality := .GPS_SPS, sat_count := 8, error := 20 } = false
    ∧ GpsResponse.is_valid_read
        { quality := .GPS_SPS, sat_count := 3, error := 1999 / 100 } = true :=
  ⟨is_valid_read_spec.2.1 _ rfl,
   is_valid_read_spec.2.2.1 _ rfl,
   is_valid_read_spec.2.2.2 _ (by decide) rfl rfl⟩

/-- Value of a decimal digit character, `none` for a non-digit.  Models the
per-character behaviour of Python's `int`/`float` parsing of digit runs. -/
def digitVal? (c : Char) : Option ℕ :=
  if c.isDigit then some (c.toNat - 48) else none

/-- Value of a non-empty all-digit character run, `none` otherwise. -/
def natOfDigits? (cs : List Char) : Option ℕ :=
  cs.foldl (fun acc c => acc.bind (fun a => (digitVal? c).map (fun d => a * 10 + d)))
    (if cs.isEmpty then none else some 0)

/-- Splitting a character list on a separator, modelling Python's
`str.split(sep)` for a one-character separator (as used for the comma in
`get_gga_signal_from_serial`): the empty string yields one empty field, and
a trailing separator yields a trailing empty field. -/
def split_on_char (c : Char) : List Char → List (List Char)
  | [] => [[]]
  | a :: rest =>
    if a = c then [] :: split_on_char c rest
    else
      match split_on_char c rest with
      | [] => [[a]]
      | g :: gs => (a :: g) :: gs

/-- Python `int(s)` on the decimal forms the GGA fields use: an optional
minus sign followed by digits; anything else raises `ValueError` (`none`). -/
def parseIntL? (cs : List Char) : Option ℤ :=
  match cs with
  | '-' :: rest => (natOfDigits? rest).map (fun n => -(n : ℤ))
  | _ => (natOfDigits? cs).map (fun n => (n : ℤ))

/-- Unsigned decimal literal: `digits`, `digits.digits`, `digits.` or
`.digits`, valued exactly as a rational. -/
def decOfChars? (cs : List Char) : Option ℚ :=
  match split_on_char '.' cs with
  | [ip] => (natOfDigits? ip).map (fun n => (n : ℚ))
  | [ip, fp] =>
    if ip.isEmpty && fp.isEmpty then none
    else if ip.isEmpty then
      (natOfDigits? fp).map (fun f => (f : ℚ) / 10 ^ fp.length)
    else if fp.isEmpty then (natOfDigits? ip).map (fun n => (n : ℚ))
    else
      (natOfDigits? ip).bind (fun i =>
        (natOfDigits? fp).map (fun f => (i : ℚ) + (f : ℚ) / 10 ^ fp.length))
  | _ => none

/-- Python `float(s)` on the decimal forms the GGA fields use (optional minus
sign and a decimal literal); the value is exact as a rational. -/
def parseRatL? (cs : List Char) : Option ℚ :=
  match cs with
  | '-' :: rest => (decOfChars? rest).map (fun q => -q)
  | _ => decOfChars? cs

/-- Decoder for one candidate GGA line, from the body of
`get_gga_signal_from_serial` in `src/collect_data.py`.  The line is split on
commas into fixed-position fields; a fix-quality field of 0 yields no fix
(`ok none`); missing fields model Python's `IndexError` and malformed numbers
its `ValueError` (both `Except.error`, as an uncaught exception aborts the
run).  Decimal degrees are the two-character (latitude) or three-character
(longitude) degree prefix plus the remaining minutes divided by 60, negated
for a southern or western hemisphere letter. -/
def decode_gga_line (line : String) : Except String (Option GpsResponse) :=
  match split_on_char ',' line.data with
  | _f0 :: f1 :: f2 :: f3 :: f4 :: f5 :: f6 :: rest =>
    match parseIntL? f6 with
    | none => .error "ValueError: invalid fix-quality field"
    | some q =>
      if q = 0 then .ok none
      else
        match GpsReadQuality.ofInt? q with
        | none => .error "ValueError: fix-quality out of range"
        | some quality =>
          match rest with
          | f7 :: f8 :: f9 :: _ =>
            match parseIntL? f7 with
            | none => .error "ValueError: invalid satellite-count field"
            | some sat_count =>
              match parseRatL? f9 with
              | none => .error "ValueError: invalid altitude field"
              | some altitude =>
                match parseRatL? f8 with
                | none => .error "ValueError: invalid dilution field"
                | some dilution =>
                  match parseRatL? (f2.take 2) with
                  | none => .error "ValueError: invalid latitude degrees"
                  | some lat_deg =>
                    match parseRatL? (f2.drop 2) with
                    | none => .error "ValueError: invalid latitude minutes"
                    | some lat_min =>
                      match parseRatL? (f4.take 3) with
                      | none => .error "ValueError: invalid longitude degrees"
                      | some lng_deg =>
                        match parseRatL? (f4.drop 3) with
                        | none => .error "ValueError: invalid longitude minutes"
                        | some lng_min =>
                          .ok (some
                            { timestamp := String.mk f1
                              quality := quality
                              sat_count := sat_count
                              altitude := altitude
                              error := dilution
                              lat :=
                                if f3 = ['S'] then -(lat_deg + lat_min / 60)
                                else lat_deg + lat_min / 60
                              lng :=
                                if f5 = ['W'] then -(lng_deg + lng_min / 60)
                                else lng_deg + lng_min / 60 })
          | _ => .error "IndexError: too few NMEA fields"
  | _ => .error "IndexError: too few NMEA fields"

/-- Substring test for the caller's `"GPGGA" in line` filter. -/
def starts_with_chars : List Char → List Char → Bool
  | [], _ => true
  | _ :: _, [] => false
  | p :: ps, b :: bs => p = b && starts_with_chars ps bs

/-- Membership of a pattern anywhere in a character list. -/
def contains_chars (pat : List Char) : List Char → Bool
  | [] => pat.isEmpty
  | b :: bs => starts_with_chars pat (b :: bs) || contains_chars pat bs

/-- Serial scan from `get_gga_signal_from_serial`: lines are read until one
contains "GPGGA", which is then decoded; the serial feed is modelled as the
list of lines it will produce.  If no line ever matches, the source blocks
forever on `readline`, modelled as an error. -/
def get_gga_signal_from_serial (lines : List String) :
    Except String (Option GpsResponse) :=
  match lines.find? (fun l => contains_chars "GPGGA".data l.data) with
  | some l => decode_gga_line l
  | none => .error "blocked: no GPGGA line on the serial feed"

/-- One output row, from `save_read_to_file` in `src/collect_data.py`.  The
source initialises every column to the empty string and fills the position
columns only when the GPS read is present; absent columns are `none` here.
The timestamp column (`datetime.datetime.now()`) is taken as a parameter. -/
structure CsvRow where
  timestamp : String
  signal_strength_db : ℚ
  signal_strength_s_unit : String
  latitude : Option ℚ
  longitude : Option ℚ
  elevation : Option ℚ
deriving DecidableEq, Repr

/-- Row construction from `save_read_to_file`: position columns are populated
exactly when `gps_read` is not `None`; no validity check is made here. -/
def save_read_to_file (now : String) (signal_strength_db : ℚ)
    (signal_strength_s_unit : String) (gps_read : Option GpsResponse) :
    CsvRow :=
  { timestamp := now
    signal_strength_db := signal_strength_db
    signal_strength_s_unit := signal_strength_s_unit
    latitude := gps_read.map (fun g => g.lat)
    longitude := gps_read.map (fun g => g.lng)
    elevation := gps_read.map (fun g => g.altitude) }

instance {e a : Type} [DecidableEq e] [DecidableEq a] : DecidableEq (Except e a) :=
  fun x y =>
    match x, y with
    | .ok u, .ok v => decidable_of_iff (u = v) (by simp)
    | .error u, .error v => decidable_of_iff (u = v) (by simp)
    | .ok _, .error _ => isFalse (by simp)
    | .error _, .ok _ => isFalse (by simp)

/-- Inversion of a successful decode: the latitude is the parsed two-character
degree prefix plus the parsed remaining minutes over 60 (three characters for
longitude), negated for hemisphere letters S/W, and the fix-quality is never
INVALID (quality 0 yields `ok none` instead). -/
theorem decode_gga_line_ok_inv (line : String) (res : GpsResponse)
    (h : decode_gga_line line = .ok (some res)) :
    ∃ latd latm lngd lngm : ℚ,
      parseRatL? (((split_on_char ',' line.data).getD 2 []).take 2) = some latd ∧
      parseRatL? (((split_on_char ',' line.data).getD 2 []).drop 2) = some latm ∧
      parseRatL? (((split_on_char ',' line.data).getD 4 []).take 3) = some lngd ∧
      parseRatL? (((split_on_char ',' line.data).getD 4 []).drop 3) = some lngm ∧
      res.lat = (if (split_on_char ',' line.data).getD 3 [] = ['S']
                 then -(latd + latm / 60) else latd + latm / 60) ∧
      res.lng = (if (split_on_char ',' line.data).getD 5 [] = ['W']
                 then -(lngd + lngm / 60) else lngd + lngm / 60) ∧
      res.quality ≠ GpsReadQuality.INVALID := by
  unfold decode_gga_line at h
  rcases hs : split_on_char ',' line.data with
    _ | ⟨f0, _ | ⟨f1, _ | ⟨f2, _ | ⟨f3, _ | ⟨f4, _ | ⟨f5, _ | ⟨f6, rest⟩⟩⟩⟩⟩⟩⟩ <;>
    simp only [hs] at h <;> try exact Except.noConfusion h
  cases hq : parseIntL? f6 <;> simp only [hq] at h
  · exact Except.noConfusion h
  rename_i q
  by_cases hq0 : q = 0
  · rw [if_pos hq0] at h
    simp at h
  rw [if_neg hq0] at h
  cases hqual : GpsReadQuality.ofInt? q <;> simp only [hqual] at h
  · exact Except.noConfusion h
  rename_i quality
  rcases hrest : rest with _ | ⟨f7, _ | ⟨f8, _ | ⟨f9, rtail⟩⟩⟩ <;>
    simp only [hrest] at h <;> try exact Except.noConfusion h
  cases hsat : parseIntL? f7 <;> simp only [hsat] at h
  · exact Except.noConfusion h
  rename_i sat_count
  cases halt : parseRatL? f9 <;> simp only [halt] at h
  · exact Except.noConfusion h
  rename_i altitude
  cases hdil : parseRatL? f8 <;> simp only [hdil] at h
  · exact Except.noConfusion h
  rename_i dilution
  cases hlatd : parseRatL? (f2.take 2) <;> simp only [hlatd] at h
  · exact Except.noConfusion h
  rename_i lat_deg
  cases hlatm : parseRatL? (f2.drop 2) <;> simp only [hlatm] at h
  · exact Except.noConfusion h
  rename_i lat_min
  cases hlngd : parseRatL? (f4.take 3) <;> simp only [hlngd] at h
  · exact Except.noConfusion h
  rename_i lng_deg
  cases hlngm : parseRatL? (f4.drop 3) <;> simp only [hlngm] at h
  · exact Except.noConfusion h
  rename_i lng_min
  injection h with h1
  injection h1 with h2
  subst h2
  have hqualinv : quality ≠ GpsReadQuality.INVALID := by
    unfold GpsReadQuality.ofInt? at hqual
    split_ifs at hqual with h1 h2 h3 h4 h5 h6 h7 h8
    all_goals injection hqual with hq2
    all_goals rw [← hq2]
    all_goals decide
  refine ⟨lat_deg, lat_min, lng_deg, lng_min, ?_, ?_, ?_, ?_, ?_, ?_, hqualinv⟩ <;>
    simp only [hs, List.getD_cons_succ, List.getD_cons_zero] <;>
    first
      | exact hlatd
      | exact hlatm
      | exact hlngd
      | exact hlngm

/-- Test line from the specification's end-to-end GGA scenario. -/
def gga_test_line : String :=
  "$GPGGA,123519,4807.038,N,01131.000,E,1,08,0.9,545.4,M,46.9,M,,*47"

/-- Exact decode of the test line: latitude 48.1173, longitude 11 + 31/60,
quality GPS_SPS, 8 satellites, altitude 545.4, DOP 0.9, timestamp 123519. -/
def gga_test_fix : GpsResponse :=
  { lat := 481173 / 10000
    lng := 691 / 60
    quality := .GPS_SPS
    sat_count := 8
    altitude := 5454 / 10
    error := 9 / 10
    timestamp := "123519" }

section RatEval

attribute [local semireducible] Rat.add Rat.mul Rat.inv Rat.sub

/-- C5.  A successfully decoded GGA line's decimal latitude is the number
formed by the first two characters of the latitude field plus the remaining
characters parsed as minutes divided by 60 (first three characters for
longitude), negated for a southern or western hemisphere letter; and the
specification's end-to-end line decodes to latitude 48.1173 exactly,
longitude within 1e-4 of 11.5167, quality GPS_SPS, 8 satellites, altitude
545.4, and a fix that `is_valid_read` accepts. -/
theorem gga_decode_spec :
    (∀ (line : String) (res : GpsResponse),
      decode_gga_line line = .ok (some res) →
      ∃ latd latm lngd lngm : ℚ,
        parseRatL? (((split_on_char ',' line.data).getD 2 []).take 2) = some latd ∧
        parseRatL? (((split_on_char ',' line.data).getD 2 []).drop 2) = some latm ∧
        parseRatL? (((split_on_char ',' line.data).getD 4 []).take 3) = some lngd ∧
        parseRatL? (((split_on_char ',' line.data).getD 4 []).drop 3) = some lngm ∧
        res.lat = (if (split_on_char ',' line.data).getD 3 [] = ['S']
                   then -(latd + latm / 60) else latd + latm / 60) ∧
        res.lng = (if (split_on_char ',' line.data).getD 5 [] = ['W']
                   then -(lngd + lngm / 60) else lngd + lngm / 60))
    ∧ decode_gga_line gga_test_line = .ok (some gga_test_fix)
    ∧ |gga_test_fix.lat - 481173 / 10000| < 1 / 10000
    ∧ |gga_test_fix.lng - 115167 / 10000| < 1 / 10000
    ∧ gga_test_fix.quality = GpsReadQuality.GPS_SPS
    ∧ gga_test_fix.sat_count = 8
    ∧ gga_test_fix.altitude = 5454 / 10
    ∧ gga_test_fix.is_valid_read = true := by
  refine ⟨?_, by decide, by decide, by decide, rfl, rfl, by decide, by decide⟩
  intro line res h
  obtain ⟨latd, latm, lngd, lngm, h1, h2, h3, h4, h5, h6, _⟩ :=
    decode_gga_line_ok_inv line res h
  exact ⟨latd, latm, lngd, lngm, h1, h2, h3, h4, h5, h6⟩

/-- Witness for C5: the degree/minute formula instantiated at the concrete
test line, discharging the decode hypothesis with the end-to-end conjunct. -/
theorem gga_decode_spec_witness :
    ∃ latd latm lngd lngm : ℚ,
      parseRatL? (((split_on_char ',' gga_test_line.data).getD 2 []).take 2)
        = some latd ∧
      parseRatL? (((split_on_char ',' gga_test_line.data).getD 2 []).drop 2)
        = some latm ∧
      parseRatL? (((split_on_char ',' gga_test_line.data).getD 4 []).take 3)
        = some lngd ∧
      parseRatL? (((split_on_char ',' gga_test_line.data).getD 4 []).drop 3)
        = some lngm ∧
      gga_test_fix.lat =
        (if (split_on_char ',' gga_test_line.data).getD 3 [] = ['S']
         then -(latd + latm / 60) else latd + latm / 60) ∧
      gga_test_fix.lng =
        (if (split_on_char ',' gga_test_line.data).getD 5 [] = ['W']
         then -(lngd + lngm / 60) else lngd + lngm / 60) :=
  gga_decode_spec.1 gga_test_line gga_test_fix gga_decode_spec.2.1

/-- Serial line carrying a decodable fix that `is_valid_read` rejects: fix
quality 1 (GPS_SPS) but only 2 satellites and dilution of precision 25. -/
def gga_bad_line : String :=
  "$GPGGA,123519,4807.038,N,01131.000,E,1,02,25.0,545.4,M,46.9,M,,*47"

/-- Decode of `gga_bad_line`: a populated fix failing every validity margin. -/
def gga_bad_fix : GpsResponse :=
  { lat := 481173 / 10000
    lng := 691 / 60
    quality := .GPS_SPS
    sat_count := 2
    altitude := 5454 / 10
    error := 25
    timestamp := "123519" }

/-- C1 counterexample.  The acquisition loop in `collect_data.main` passes
`get_gga_signal_from_serial`'s result straight to `save_read_to_file` without
calling `is_valid_read`: a decodable fix with 2 satellites and DOP 25 — which
`FixValidator` rejects — still populates the emitted record's latitude,
longitude and elevation fields. -/
theorem record_position_counterexample :
    decode_gga_line gga_bad_line = .ok (some gga_bad_fix)
    ∧ gga_bad_fix.is_valid_read = false
    ∧ (save_read_to_file "t" 0 "S2" (some gga_bad_fix)).latitude
        = some gga_bad_fix.lat
    ∧ (save_read_to_file "t" 0 "S2" (some gga_bad_fix)).latitude ≠ none
    ∧ (save_read_to_file "t" 0 "S2" (some gga_bad_fix)).longitude ≠ none
    ∧ (save_read_to_file "t" 0 "S2" (some gga_bad_fix)).elevation ≠ none := by
  refine ⟨by decide, by decide, rfl, ?_, ?_, ?_⟩ <;> simp [save_read_to_file]

/-- C1 amended.  A record's position fields are populated exactly when the
tick's decode produced a fix object, and they carry that fix's coordinates;
producing a fix requires only a non-invalid fix-quality field, not passing
`is_valid_read` — the validator gates only the GPS-source setup phase, so a
decoded fix that the validator would reject still populates the record. -/
theorem record_position_iff_decoded_fix :
    (∀ (now : String) (db : ℚ) (su : String) (gr : Option GpsResponse),
      (save_read_to_file now db su gr).latitude = gr.map (fun g => g.lat)
      ∧ (save_read_to_file now db su gr).longitude = gr.map (fun g => g.lng)
      ∧ (save_read_to_file now db su gr).elevation = gr.map (fun g => g.altitude)
      ∧ (((save_read_to_file now db su gr).latitude = none
           ∧ (save_read_to_file now db su gr).longitude = none
           ∧ (save_read_to_file now db su gr).elevation = none) ↔ gr = none))
    ∧ (∀ (line : String) (g : GpsResponse),
      decode_gga_line line = .ok (some g) → g.quality ≠ GpsReadQuality.INVALID) := by
  constructor
  · intro now db su gr
    cases gr <;> simp [save_read_to_file]
  · intro line g h
    obtain ⟨_, _, _, _, _, _, _, _, _, _, hq⟩ := decode_gga_line_ok_inv line g h
    exact hq

/-- Witness for C1 amended: with an absent GPS read every position field is
empty, and with a present fix they carry its coordinates; the decoded fix of
the documentation line has non-invalid quality. -/
theorem record_position_iff_decoded_fix_witness :
    (save_read_to_file "t" 0 "S9" none).latitude = none
    ∧ (save_read_to_file "t" 0 "S9" (some gga_test_fix)).latitude
        = some gga_test_fix.lat
    ∧ gga_test_fix.quality ≠ GpsReadQuality.INVALID :=
  ⟨((record_position_iff_decoded_fix.1 "t" 0 "S9" none).1).trans rfl,
   ((record_position_iff_decoded_fix.1 "t" 0 "S9" (some gga_test_fix)).1).trans rfl,
   record_position_iff_decoded_fix.2 gga_test_line gga_test_fix (by decide)⟩

end RatEval

/-- One row of the collected CSV as `generate_map.py` consumes it: latitude,
longitude and the calibrated level. -/
structure MapRecord where
  latitude : ℚ
  longitude : ℚ
  signal_strength_db : ℚ
deriving DecidableEq, Repr

/-- Binning from `generate_map.main`:
`to_bin = lambda x: np.floor(x / DEDUPLICATION_STEP) * DEDUPLICATION_STEP`. -/
def to_bin (step x : ℚ) : ℚ :=
  ⌊x / step⌋ * step

/-- Bin key of a record: its floored latitude and longitude. -/
def bin_key (step : ℚ) (r : MapRecord) : ℚ × ℚ :=
  (to_bin step r.latitude, to_bin step r.longitude)

/-- Records of a bin: the rows whose coordinates floor to the given key
(the members of one `df.groupby(["lat_bin", "lon_bin"])` group). -/
def bin_group (rs : List MapRecord) (step : ℚ) (k : ℚ × ℚ) : List MapRecord :=
  rs.filter (fun r => bin_key step r = k)

/-- Maximum of a list of levels, as `np.max` over a non-empty group;
`np.max` raises on an empty array, which never occurs below, so the empty
case is given an arbitrary value. -/
def np_max : List ℚ → ℚ
  | [] => 0
  | a :: l => l.foldl max a

/-- Summary point appended for one group in `generate_map.main`: the bin's
rounded coordinates with the group's maximum signal strength. -/
def dedupe_point (rs : List MapRecord) (step : ℚ) (k : ℚ × ℚ) : MapRecord :=
  { latitude := k.1
    longitude := k.2
    signal_strength_db :=
      np_max ((bin_group rs step k).map (fun r => r.signal_strength_db)) }

/-- Deduplication block of `generate_map.main`: records are grouped by bin
key and each group collapses to one summary point at the bin's rounded
coordinates carrying the group's maximum signal strength.  `pandas` iterates
groups in sorted key order; the key list is produced here in (last-occurrence)
deduplicated order instead, which only permutes the output. -/
def dedupe (rs : List MapRecord) (step : ℚ) : List MapRecord :=
  ((rs.map (bin_key step)).dedup).map (dedupe_point rs step)

theorem foldl_max_init_le (l : List ℚ) : ∀ a b : ℚ, b ≤ a → b ≤ l.foldl max a := by
  induction l with
  | nil => intro a b h; simpa using h
  | cons c t ih =>
      intro a b h
      simp only [List.foldl_cons]
      exact ih (max a c) b (le_trans h (le_max_left a c))

theorem foldl_max_of_mem (l : List ℚ) : ∀ a x : ℚ, x ∈ l → x ≤ l.foldl max a := by
  induction l with
  | nil => intro a x h; cases h
  | cons c t ih =>
      intro a x h
      simp only [List.foldl_cons]
      rcases List.mem_cons.mp h with h' | h'
      · exact h' ▸ foldl_max_init_le t (max a c) c (le_max_right a c)
      · exact ih (max a c) x h'

theorem foldl_max_mem (l : List ℚ) : ∀ a : ℚ, l.foldl max a ∈ l ∨ l.foldl max a = a := by
  induction l with
  | nil => intro a; simp
  | cons b t ih =>
      intro a
      simp only [List.foldl_cons]
      rcases ih (max a b) with h | h
      · exact Or.inl (List.mem_cons_of_mem b h)
      · rcases max_cases a b with ⟨he, _⟩ | ⟨he, _⟩
        · exact Or.inr (by rw [h, he])
        · exact Or.inl (by rw [h, he]; exact List.mem_cons_self b t)

theorem np_max_spec {l : List ℚ} (hl : l ≠ []) :
    np_max l ∈ l ∧ ∀ x ∈ l, x ≤ np_max l := by
  cases l with
  | nil => exact absurd rfl hl
  | cons a t =>
      refine ⟨?_, ?_⟩
      · rcases foldl_max_mem t a with h | h
        · exact List.mem_cons_of_mem a h
        · show t.foldl max a ∈ a :: t
          rw [h]
          exact List.mem_cons_self a t
      · intro x hx
        rcases List.mem_cons.mp hx with h | h
        · show x ≤ t.foldl max a
          rw [h]
          exact foldl_max_init_le t a a le_rfl
        · exact foldl_max_of_mem t a x h

/-- C8.  With a positive bin step, `dedupe` bins each record by flooring its
coordinates to multiples of the step, emits at most one record per occupied
bin (the emitted coordinate pairs are pairwise distinct), every emitted
record's level is the maximum level among its bin's contributing input
records, the output count never exceeds the input count, and they are equal
exactly when every input record occupies a distinct bin. -/
theorem dedupe_spec (rs : List MapRecord) (step : ℚ) (_hstep : 0 < step) :
    (dedupe rs step).length ≤ rs.length
    ∧ ((dedupe rs step).map (fun r => (r.latitude, r.longitude))).Nodup
    ∧ (∀ r' ∈ dedupe rs step,
        (r'.latitude, r'.longitude) ∈ rs.map (bin_key step)
        ∧ r'.signal_strength_db ∈
            (bin_group rs step (r'.latitude, r'.longitude)).map
              (fun r => r.signal_strength_db)
        ∧ ∀ v ∈ (bin_group rs step (r'.latitude, r'.longitude)).map
              (fun r => r.signal_strength_db), v ≤ r'.signal_strength_db)
    ∧ ((dedupe rs step).length = rs.length ↔ (rs.map (bin_key step)).Nodup) := by
  have hlen : (dedupe rs step).length = ((rs.map (bin_key step)).dedup).length := by
    simp [dedupe]
  have hmaplen : (rs.map (bin_key step)).length = rs.length := List.length_map rs _
  refine ⟨?_, ?_, ?_, ?_⟩
  · rw [hlen, ← hmaplen]
    exact ((rs.map (bin_key step)).dedup_sublist).length_le
  · have hcomp :
        (dedupe rs step).map (fun r => (r.latitude, r.longitude))
          = (rs.map (bin_key step)).dedup := by
      unfold dedupe
      rw [List.map_map]
      exact List.map_id _
    rw [hcomp]
    exact (rs.map (bin_key step)).nodup_dedup
  · intro r' hr'
    obtain ⟨k, hk, rfl⟩ := List.mem_map.mp hr'
    have hk' : k ∈ rs.map (bin_key step) := List.mem_dedup.mp hk
    obtain ⟨r, hr, hkey⟩ := List.mem_map.mp hk'
    have hmem : r ∈ bin_group rs step k := by
      simp [bin_group, List.mem_filter, hr, hkey]
    have hne : (bin_group rs step k).map (fun r => r.signal_strength_db) ≠ [] :=
      List.ne_nil_of_mem (List.mem_map_of_mem _ hmem)
    have hspec := np_max_spec hne
    exact ⟨hk', hspec.1, hspec.2⟩
  · rw [hlen, ← hmaplen]
    constructor
    · intro h
      have heq := (rs.map (bin_key step)).dedup_sublist.eq_of_length h
      rw [← heq]
      exact (rs.map (bin_key step)).nodup_dedup
    · intro h
      rw [List.dedup_eq_self.mpr h]

/-- Witness for C8 at a one-record list with step 1: the deduplicated list is
no longer than the input. -/
theorem dedupe_spec_witness :
    (dedupe [⟨1, 2, 5⟩] 1).length ≤ 1 :=
  (dedupe_spec [⟨1, 2, 5⟩] 1 (by norm_num)).1

theorem to_bin_idem (s x : ℚ) : to_bin s (to_bin s x) = to_bin s x := by
  rcases eq_or_ne s 0 with h | h
  · simp [to_bin, h]
  · unfold to_bin
    rw [mul_div_cancel_right₀ _ h, Int.floor_intCast]

theorem filter_eq_singleton_of_nodup {α : Type} [DecidableEq α] (a : α) :
    ∀ l : List α, l.Nodup → a ∈ l →
      l.filter (fun x => x = a) = [a] := by
  intro l
  induction l with
  | nil => intro _ ha; cases ha
  | cons b t ih =>
      intro hnd ha
      rcases List.nodup_cons.mp hnd with ⟨hbt, hndt⟩
      rw [List.filter_cons]
      by_cases hba : b = a
      · subst hba
        have hnil : t.filter (fun x => x = b) = [] :=
          List.filter_eq_nil_iff.mpr (fun x hx => by
            simp only [decide_eq_true_eq]
            intro he
            exact hbt (he ▸ hx))
        simp [hnil]
      · have hat : a ∈ t := by
          rcases List.mem_cons.mp ha with h | h
          · exact absurd h.symm hba
          · exact h
        rw [if_neg (by simp [hba])]
        exact ih hndt hat

theorem bin_key_dedupe_point (rs : List MapRecord) (step : ℚ) :
    ∀ k ∈ (rs.map (bin_key step)).dedup,
      bin_key step (dedupe_point rs step k) = k := by
  intro k hk
  obtain ⟨r, _, rfl⟩ := List.mem_map.mp (List.mem_dedup.mp hk)
  show (to_bin step (to_bin step r.latitude), to_bin step (to_bin step r.longitude))
      = _
  rw [to_bin_idem, to_bin_idem]
  rfl

/-- C9.  `dedupe` is idempotent: re-deduplicating an already deduplicated
record list with the same step returns it unchanged, because every emitted
record sits exactly at its own bin's rounded coordinates. -/
theorem dedupe_idempotent (rs : List MapRecord) (step : ℚ) :
    dedupe (dedupe rs step) step = dedupe rs step := by
  have hB : (dedupe rs step).map (bin_key step) = (rs.map (bin_key step)).dedup := by
    unfold dedupe
    rw [List.map_map]
    exact (List.map_congr_left (bin_key_dedupe_point rs step)).trans (List.map_id _)
  have hD : ∀ k ∈ (rs.map (bin_key step)).dedup,
      bin_group (dedupe rs step) step k = [dedupe_point rs step k] := by
    intro k hk
    show (((rs.map (bin_key step)).dedup).map (dedupe_point rs step)).filter
        (fun r => bin_key step r = k) = _
    rw [List.filter_map]
    have hcongr :
        ((rs.map (bin_key step)).dedup).filter
            ((fun r => decide (bin_key step r = k)) ∘ dedupe_point rs step)
          = ((rs.map (bin_key step)).dedup).filter (fun x => x = k) := by
      refine List.filter_congr ?_
      intro x hx
      simp [bin_key_dedupe_point rs step x hx]
    rw [hcongr, filter_eq_singleton_of_nodup k _ ((rs.map (bin_key step)).nodup_dedup) hk]
    rfl
  show ((dedupe rs step).map (bin_key step)).dedup.map
      (dedupe_point (dedupe rs step) step) = dedupe rs step
  rw [hB, List.dedup_eq_self.mpr ((rs.map (bin_key step)).nodup_dedup)]
  show ((rs.map (bin_key step)).dedup).map (dedupe_point (dedupe rs step) step)
      = ((rs.map (bin_key step)).dedup).map (dedupe_point rs step)
  refine List.map_congr_left ?_
  intro k hk
  show { latitude := k.1, longitude := k.2,
         signal_strength_db :=
           np_max ((bin_group (dedupe rs step) step k).map
             (fun r => r.signal_strength_db)) }
      = dedupe_point rs step k
  rw [hD k hk]
  rfl

/-- Signal sources from `src/config.py` (`SignalSource`). -/
inductive SignalSource where
  | RTLSDR
  | LINE_IN
deriving DecidableEq, Repr

/-- Configured source from `src/config.py`: `SIGNAL_SOURCE = SignalSource.RTLSDR`. -/
def SIGNAL_SOURCE : SignalSource := SignalSource.RTLSDR

/-- Outcome of the source dispatch at the top of `collect_data.main`: either
the loop proceeds (with direct sampling enabled for HF frequencies), or the
process exits with the given status code before any sample is collected. -/
inductive StartupOutcome where
  | proceed (direct_sampling : Bool)
  | exited (code : ℕ)
deriving DecidableEq, Repr

/-- Source dispatch from `collect_data.main`: the RTLSDR branch configures
the device (direct sampling below 30 MHz) and enters the loop; the LINE_IN
branch logs "LINE IN signal source is not yet supported" and calls
`sys.exit(0)` — exit status zero — before the loop starts. -/
def main_source_dispatch (src : SignalSource) (listening_frequency : ℚ) :
    StartupOutcome :=
  match src with
  | .RTLSDR => .proceed (decide (listening_frequency ≤ 30000000))
  | .LINE_IN => .exited 0

/-- C10 evaluation.  Selecting the unimplemented line-in source does make the
program stop at startup, but through `sys.exit(0)`: the process exit status
is 0, not non-zero as the specification's configuration-error taxonomy
requires (the neighbouring output-file failure path uses `sys.exit(1)`). -/
theorem line_in_exit_status :
    main_source_dispatch SignalSource.LINE_IN LISTENING_FREQUENCY
      = StartupOutcome.exited 0
    ∧ ∀ c : ℕ,
        main_source_dispatch SignalSource.LINE_IN LISTENING_FREQUENCY
          = StartupOutcome.exited c → c = 0 := by
  refine ⟨rfl, ?_⟩
  intro c hc
  injection hc with h
  exact h.symm

/-- IEEE-style value of a `numpy` floating-point entry as the spectral code
produces it: a finite real, `-inf` (from `np.log10(0)`), or NaN (from the
logarithm of a negative number, which cannot arise for magnitudes). -/
inductive FloatV where
  | ninf
  | nan
  | fin (x : ℝ)

/-- `np.log10` with IEEE semantics: `-inf` at zero, NaN below zero. -/
noncomputable def np_log10 (m : ℝ) : FloatV :=
  if 0 < m then FloatV.fin (Real.logb 10 m) else if m = 0 then FloatV.ninf
  else FloatV.nan

/-- Multiplication of a `numpy` float by a positive literal constant (the
`20 *` of the dBFS conversion): `20 * -inf = -inf`, NaN propagates. -/
noncomputable def FloatV.scale_pos (c : ℝ) : FloatV → FloatV
  | .ninf => .ninf
  | .nan => .nan
  | .fin x => .fin (c * x)

/-- Subtraction of a finite constant (the antenna offset): `-inf - c = -inf`. -/
noncomputable def FloatV.sub_const : FloatV → ℝ → FloatV
  | .ninf, _ => .ninf
  | .nan, _ => .nan
  | .fin x, c => .fin (x - c)

/-- Pairwise maximum with IEEE special values, as `np.max` reduces: NaN
propagates and `-inf` is the identity. -/
noncomputable def fmax : FloatV → FloatV → FloatV
  | .nan, _ => .nan
  | _, .nan => .nan
  | .ninf, b => b
  | a, .ninf => a
  | .fin a, .fin b => .fin (max a b)

/-- `np.max` over an array of floats; `none` models the error raised on an
empty array (never reached by the pipeline, whose spectra are non-empty). -/
noncomputable def np_max_fv : List FloatV → Option FloatV
  | [] => none
  | a :: l => some (l.foldl fmax a)

/-- One-sided discrete Fourier transform `np.fft.rfft`: bin k of an N-point
real input is the sum of `x[n] * exp(-2πi k n / N)`, for k = 0 .. ⌊N/2⌋.
`rfft` requires real input; given the complex RTL-SDR samples it discards
the imaginary part (with a `ComplexWarning`), so the caller passes the real
parts here. -/
noncomputable def np_rfft (x : List ℝ) : List ℂ :=
  (List.range (x.length / 2 + 1)).map (fun k : ℕ =>
    ∑ n ∈ Finset.range x.length,
      ((x.getD n 0 : ℝ) : ℂ) *
        Complex.exp (-(2 * (Real.pi : ℂ) * Complex.I * (k : ℂ) * (n : ℂ))
          / (x.length : ℂ)))

/-- Decibel output of `dbfft`: a 1-D `numpy` array when an explicit window
vector is supplied, a 2-D array when the default column window broadcasts.
`len` is Python's `len`, i.e. the first dimension. -/
inductive DbArr where
  | vec (v : List FloatV)
  | mat (m : List (List FloatV))

/-- Python `len` of the dB output: entry count of a vector, row count of a
matrix. -/
def DbArr.len : DbArr → ℕ
  | .vec v => v.length
  | .mat m => m.length

/-- `np.max` over the dB output: the reduction flattens the array and folds
`fmax`; `none` models the error raised on an empty array (never reached by
the pipeline, whose sample blocks are non-empty). -/
noncomputable def np_max_arr : DbArr → Option FloatV
  | .vec v => np_max_fv v
  | .mat m => np_max_fv m.flatten

/-- Spectrum estimation `dbfft` from `src/collect_data.py`.  With no window
supplied the default is `np.ones([N, 1])` — a COLUMN vector of shape (N, 1):
its `len` is N, so the length check passes, and `x * win` broadcasts the
(N,)-shaped sample block against the column into an N × N matrix whose row i
is `x * win[i][0]`; `np.fft.rfft` then runs along the last axis (discarding
the imaginary parts of the complex samples, with a `ComplexWarning`), so the
dB output is an N × (⌊N/2⌋+1) matrix and `np.sum(win) = N`.  With an
explicit 1-D window the product stays 1-D and the dB output is a
(⌊N/2⌋+1)-vector; a length mismatch raises `ValueError` (`none`).  The
frequency axis is `np.arange((N/2)+1) / (N/fs)` — `N/2` in float division,
so it has ⌈N/2 + 1⌉ entries — and each dB entry is
`20 * log10(|rfft bin| * 2 / sum(win) / ref)`. -/
noncomputable def dbfft (x : List ℂ) (fs : ℝ) (win : Option (List ℝ))
    (ref : ℝ) : Option (List ℝ × DbArr) :=
  let N := x.length
  let freq := (List.range (Nat.ceil ((N : ℚ) / 2 + 1))).map
    (fun j : ℕ => (j : ℝ) / ((N : ℝ) / fs))
  match win with
  | none =>
      let wcol := List.replicate N (1 : ℝ)
      if x.length ≠ wcol.length then none
      else
        let rows := wcol.map (fun c => x.map (fun a => a * ((c : ℝ) : ℂ)))
        let sp_rows := rows.map (fun row => np_rfft (row.map Complex.re))
        let s_dbfs := sp_rows.map (fun sp => sp.map (fun cc =>
          FloatV.scale_pos 20 (np_log10 (Complex.abs cc * 2 / wcol.sum / ref))))
        some (freq, DbArr.mat s_dbfs)
  | some w =>
      if x.length ≠ w.length then none
      else
        let xw := List.zipWith (fun a b => a * ((b : ℝ) : ℂ)) x w
        let sp := np_rfft (xw.map Complex.re)
        let s_dbfs := sp.map (fun cc =>
          FloatV.scale_pos 20 (np_log10 (Complex.abs cc * 2 / w.sum / ref)))
        some (freq, DbArr.vec s_dbfs)

/-- Sample rate from `src/config.py` (`RtlSdrSettings.sample_rate = 2.048e6`). -/
def RtlSdrSettings_sample_rate : ℝ := 2048000

/-- Antenna offset from `src/config.py` (`ANTENNA_FUDGE_FACTOR = 0`). -/
def ANTENNA_FUDGE_FACTOR : ℝ := 0

/-- Level extraction `read_signal_str` from `src/collect_data.py`: estimate
the spectrum of the 1024-sample block with the default window, take the
maximum dB entry of the (here 2-D) output, and subtract the antenna offset.
The sample block itself comes from the hardware collaborator
(`sdr.read_samples(1024)`). -/
noncomputable def read_signal_str (samples : List ℂ) : Option FloatV :=
  match dbfft samples RtlSdrSettings_sample_rate none 1 with
  | none => none
  | some p =>
      match np_max_arr p.2 with
      | none => none
      | some m => some (m.sub_const ANTENNA_FUDGE_FACTOR)

theorem getD_replicate_zero (N i : ℕ) : (List.replicate N (0:ℝ)).getD i 0 = 0 := by
  induction N generalizing i with
  | zero => simp [List.getD]
  | succ n ih =>
      cases i with
      | zero => simp [List.replicate_succ]
      | succ j =>
          rw [List.replicate_succ, List.getD_cons_succ]
          exact ih j

/-- The one-sided DFT of an all-zero block is all-zero. -/
theorem np_rfft_zeros (N : ℕ) :
    np_rfft (List.replicate N 0) = List.replicate (N / 2 + 1) 0 := by
  unfold np_rfft
  rw [List.length_replicate]
  have h1 : ∀ k : ℕ, (∑ n ∈ Finset.range N,
      (((List.replicate N (0:ℝ)).getD n 0 : ℝ) : ℂ) *
        Complex.exp (-(2 * (Real.pi : ℂ) * Complex.I * (k : ℂ) * (n : ℂ))
          / (N : ℂ))) = 0 := by
    intro k
    refine Finset.sum_eq_zero ?_
    intro n _
    rw [getD_replicate_zero]
    simp
  simp only [h1]
  rw [List.map_const', List.length_range]

theorem foldl_fmax_ninf_all :
    ∀ t : List FloatV, (∀ v ∈ t, v = FloatV.ninf) →
      t.foldl fmax FloatV.ninf = FloatV.ninf := by
  intro t
  induction t with
  | nil => intro _; rfl
  | cons b t' ih =>
      intro h
      have hb : b = FloatV.ninf := h b (List.mem_cons_self b t')
      rw [List.foldl_cons, hb]
      exact ih (fun v hv => h v (List.mem_cons_of_mem b hv))

/-- `np.max` of a non-empty all-`-inf` array is `-inf`. -/
theorem np_max_fv_ninf (l : List FloatV) (hne : l ≠ [])
    (hall : ∀ v ∈ l, v = FloatV.ninf) : np_max_fv l = some FloatV.ninf := by
  cases l with
  | nil => exact absurd rfl hne
  | cons a t =>
      have ha : a = FloatV.ninf := hall a (List.mem_cons_self a t)
      show some (t.foldl fmax a) = some FloatV.ninf
      rw [ha, foldl_fmax_ninf_all t
        (fun v hv => hall v (List.mem_cons_of_mem a hv))]

/-- Spectrum of an all-zero block: every magnitude of every broadcast row is
zero, so every dB entry of the N × (⌊N/2⌋+1) matrix is `-inf` —
`np.log10(0)` — and nothing clamps or flags it. -/
theorem dbfft_zeros (N : ℕ) (fs : ℝ) :
    dbfft (List.replicate N 0) fs none 1
      = some ((List.range (Nat.ceil ((N : ℚ) / 2 + 1))).map
                (fun j : ℕ => (j : ℝ) / ((N : ℝ) / fs)),
              DbArr.mat (List.replicate N
                (List.replicate (N / 2 + 1) FloatV.ninf))) := by
  unfold dbfft
  simp only [List.length_replicate]
  rw [if_neg (by simp)]
  simp only [List.map_replicate, zero_mul, Complex.zero_re]
  rw [np_rfft_zeros]
  simp only [List.map_replicate, map_zero, zero_mul, zero_div]
  have hlog : np_log10 (0 : ℝ) = FloatV.ninf := by
    norm_num [np_log10]
  rw [hlog]
  rfl

/-- The tick level extracted from a non-empty all-zero block is `-inf`. -/
theorem read_signal_str_zeros (N : ℕ) (hN : N ≠ 0) :
    read_signal_str (List.replicate N 0) = some FloatV.ninf := by
  unfold read_signal_str
  rw [dbfft_zeros]
  have hmax : np_max_arr (DbArr.mat (List.replicate N
      (List.replicate (N / 2 + 1) FloatV.ninf))) = some FloatV.ninf := by
    show np_max_fv (List.replicate N
      (List.replicate (N / 2 + 1) FloatV.ninf)).flatten = some FloatV.ninf
    refine np_max_fv_ninf _ ?_ ?_
    · obtain ⟨M, rfl⟩ : ∃ M, N = M + 1 := ⟨N - 1, by omega⟩
      rw [List.replicate_succ, List.flatten_cons]
      intro hcontra
      rcases List.append_eq_nil.mp hcontra with ⟨h1, _⟩
      have hlen := congrArg List.length h1
      simp at hlen
    · intro v hv
      rw [List.mem_flatten] at hv
      obtain ⟨l, hl, hvl⟩ := hv
      rw [List.eq_of_mem_replicate hl] at hvl
      exact List.eq_of_mem_replicate hvl
  show (match np_max_arr (DbArr.mat (List.replicate N
      (List.replicate (N / 2 + 1) FloatV.ninf))) with
        | none => none
        | some m => some (m.sub_const ANTENNA_FUDGE_FACTOR)) = some FloatV.ninf
  rw [hmax]
  rfl

/-- C6 evaluation.  For the 1024-zero sample block the pipeline's level is
`-inf`: every spectrum magnitude is zero, `np.log10(0)` yields `-inf` with
only a runtime warning, `np.max` and the offset subtraction propagate it, and
no clamp or flag intervenes — the tick's level is not a (finite) numeric
value, contradicting the claim that zero-magnitude bins are clamped or
flagged. -/
theorem zero_block_level_eval :
    read_signal_str (List.replicate 1024 0) = some FloatV.ninf
    ∧ ∀ x : ℝ, FloatV.ninf ≠ FloatV.fin x :=
  ⟨read_signal_str_zeros 1024 (by norm_num), fun _ h => FloatV.noConfusion h⟩

theorem ceil_half_even (N : ℕ) (h : N % 2 = 0) :
    Nat.ceil ((N : ℚ) / 2 + 1) = N / 2 + 1 := by
  obtain ⟨m, rfl⟩ : ∃ m, N = 2 * m := ⟨N / 2, by omega⟩
  have hval : ((2 * m : ℕ) : ℚ) / 2 + 1 = ((m + 1 : ℕ) : ℚ) := by
    push_cast
    ring
  rw [hval, Nat.ceil_natCast]
  omega

theorem ceil_half_odd (N : ℕ) (h : N % 2 = 1) :
    Nat.ceil ((N : ℚ) / 2 + 1) = N / 2 + 2 := by
  obtain ⟨m, rfl⟩ : ∃ m, N = 2 * m + 1 := ⟨N / 2, by omega⟩
  have hval : ((2 * m + 1 : ℕ) : ℚ) / 2 + 1 = (m : ℚ) + 3 / 2 := by
    push_cast
    ring
  rw [hval]
  have hgoal : (2 * m + 1) / 2 + 2 = m + 2 := by omega
  rw [hgoal, Nat.ceil_eq_iff (by omega)]
  constructor
  · push_cast
    linarith
  · push_cast
    linarith

/-- Shape of the default-window output: the frequency axis has ⌈N/2 + 1⌉
entries (from `np.arange((N/2)+1)` with float division) while the dB output
is a matrix of `len` N (one broadcast row per sample). -/
theorem dbfft_none_shape (x : List ℂ) (fs ref : ℝ) :
    (dbfft x fs none ref).map (fun p => (p.1.length, p.2.len))
      = some (Nat.ceil ((x.length : ℚ) / 2 + 1), x.length) := by
  unfold dbfft
  dsimp only
  rw [if_neg (by simp)]
  rw [Option.map_some']
  congr 1
  simp only [Prod.mk.injEq]
  constructor
  · simp
  · simp [DbArr.len]

/-- Shape of the explicit all-ones-window output: the frequency axis has
⌈N/2 + 1⌉ entries while the dB output is a vector of ⌊N/2⌋ + 1 entries (the
`rfft` output length). -/
theorem dbfft_ones_shape (x : List ℂ) (fs ref : ℝ) :
    (dbfft x fs (some (List.replicate x.length 1)) ref).map
        (fun p => (p.1.length, p.2.len))
      = some (Nat.ceil ((x.length : ℚ) / 2 + 1), x.length / 2 + 1) := by
  unfold dbfft
  dsimp only
  rw [if_neg (by simp)]
  rw [Option.map_some']
  congr 1
  simp only [Prod.mk.injEq]
  constructor
  · simp
  · simp [DbArr.len, np_rfft]

theorem zipWith_mul_replicate_one (x : List ℂ) :
    List.zipWith (fun a b => a * ((b : ℝ) : ℂ)) x (List.replicate x.length 1)
      = x.map (fun a => a * ((1 : ℝ) : ℂ)) := by
  induction x with
  | nil => rfl
  | cons a t ih =>
      simp only [List.length_cons, List.replicate_succ, List.zipWith_cons_cons,
        List.map_cons]
      rw [ih]

/-- Default-window and explicit all-ones-window outputs share the frequency
axis, and the default window's dB matrix consists of N copies of the
explicit window's dB vector: the broadcast rows are all `x * 1`. -/
theorem dbfft_none_eq_rows (x : List ℂ) (fs ref : ℝ) :
    ∃ (freq : List ℝ) (row : List FloatV),
      dbfft x fs (some (List.replicate x.length 1)) ref
        = some (freq, DbArr.vec row)
      ∧ dbfft x fs none ref
        = some (freq, DbArr.mat (List.replicate x.length row)) := by
  refine ⟨(List.range (Nat.ceil ((x.length : ℚ) / 2 + 1))).map
            (fun j : ℕ => (j : ℝ) / ((x.length : ℝ) / fs)),
          (np_rfft ((x.map (fun a => a * ((1 : ℝ) : ℂ))).map Complex.re)).map
            (fun cc => FloatV.scale_pos 20
              (np_log10 (Complex.abs cc * 2
                / (List.replicate x.length (1 : ℝ)).sum / ref))),
          ?_, ?_⟩
  · unfold dbfft
    dsimp only
    rw [if_neg (by simp)]
    rw [zipWith_mul_replicate_one]
  · unfold dbfft
    dsimp only
    rw [if_neg (by simp)]
    simp only [List.map_replicate]

/-- C7 counterexample.  For the four-sample block the no-window call and the
explicit all-ones-window call do not behave identically — the former returns
a 4 × 3 dB matrix (the `np.ones([4,1])` column broadcasts), the latter a
3-entry dB vector — and the no-window dB output's `len` is 4, not
⌊4/2⌋+1 = 3, which is also the frequency axis length. -/
theorem dbfft_length_counterexample :
    dbfft [0, 0, 0, 0] 1 none 1
      ≠ dbfft [0, 0, 0, 0] 1 (some (List.replicate 4 1)) 1
    ∧ (dbfft [0, 0, 0, 0] 1 none 1).map (fun p => (p.1.length, p.2.len))
      = some (3, 4)
    ∧ (4 : ℕ) ≠ 4 / 2 + 1 := by
  refine ⟨?_, ?_, by decide⟩
  · intro heq
    obtain ⟨freq, row, hones, hnone⟩ := dbfft_none_eq_rows [0, 0, 0, 0] 1 1
    have h4 : List.length [(0 : ℂ), 0, 0, 0] = 4 := rfl
    rw [h4] at hones hnone
    rw [hnone, hones] at heq
    simp at heq
  · have h := dbfft_none_shape [0, 0, 0, 0] 1 1
    simp only [List.length_cons, List.length_nil] at h
    rw [ceil_half_even 4 rfl] at h
    simpa using h

/-- C7 amended.  With no window supplied, the default `np.ones([N,1])`
column window broadcasts: the dB output is an N × (⌊N/2⌋+1) matrix whose
rows each equal the (⌊N/2⌋+1)-entry dB vector produced by an explicit
all-ones window of length N, so the unity-gain equivalence holds row-wise
but the two calls do not return identically shaped outputs.  The frequency
axis has ⌈N/2+1⌉ entries, so the explicit-window dB vector and the frequency
axis share the length ⌊N/2⌋+1 exactly for even N (for odd N the frequency
axis has ⌊N/2⌋+2 entries). -/
theorem dbfft_default_window_amended :
    (∀ (x : List ℂ) (fs ref : ℝ), x ≠ [] →
      ∃ (freq : List ℝ) (row : List FloatV),
        dbfft x fs (some (List.replicate x.length 1)) ref
          = some (freq, DbArr.vec row)
        ∧ dbfft x fs none ref
          = some (freq, DbArr.mat (List.replicate x.length row))
        ∧ row.length = x.length / 2 + 1
        ∧ freq.length = Nat.ceil ((x.length : ℚ) / 2 + 1))
    ∧ (∀ (x : List ℂ) (fs ref : ℝ), x ≠ [] → x.length % 2 = 0 →
        (dbfft x fs (some (List.replicate x.length 1)) ref).map
            (fun p => (p.1.length, p.2.len))
          = some (x.length / 2 + 1, x.length / 2 + 1))
    ∧ (∀ (x : List ℂ) (fs ref : ℝ), x ≠ [] → x.length % 2 = 1 →
        (dbfft x fs (some (List.replicate x.length 1)) ref).map
            (fun p => (p.1.length, p.2.len))
          = some (x.length / 2 + 2, x.length / 2 + 1)) := by
  refine ⟨?_, ?_, ?_⟩
  · intro x fs ref _
    obtain ⟨freq, row, hones, hnone⟩ := dbfft_none_eq_rows x fs ref
    refine ⟨freq, row, hones, hnone, ?_, ?_⟩
    · have h := dbfft_ones_shape x fs ref
      rw [hones, Option.map_some'] at h
      exact (Prod.mk.injEq _ _ _ _ ▸ Option.some.inj h).2
    · have h := dbfft_ones_shape x fs ref
      rw [hones, Option.map_some'] at h
      exact (Prod.mk.injEq _ _ _ _ ▸ Option.some.inj h).1
  · intro x fs ref _ hpar
    rw [dbfft_ones_shape, ceil_half_even x.length hpar]
  · intro x fs ref _ hpar
    rw [dbfft_ones_shape, ceil_half_odd x.length hpar]

/-- Witness for C7 amended at the two-sample zero block: the default window
yields two copies of the explicit-window dB row, and for the explicit
all-ones window both axes have 2 entries. -/
theorem dbfft_default_window_amended_witness :
    (∃ (freq : List ℝ) (row : List FloatV),
      dbfft [0, 0] 1 (some (List.replicate (List.length [(0 : ℂ), 0]) 1)) 1
        = some (freq, DbArr.vec row)
      ∧ dbfft [0, 0] 1 none 1
        = some (freq, DbArr.mat (List.replicate (List.length [(0 : ℂ), 0]) row))
      ∧ row.length = List.length [(0 : ℂ), 0] / 2 + 1
      ∧ freq.length = Nat.ceil ((List.length [(0 : ℂ), 0] : ℚ) / 2 + 1))
    ∧ (dbfft [0, 0] 1 (some (List.replicate (List.length [(0 : ℂ), 0]) 1)) 1).map
        (fun p => (p.1.length, p.2.len)) = some (2, 2) := by
  constructor
  · exact dbfft_default_window_amended.1 [0, 0] 1 1 (by simp)
  · have h := dbfft_default_window_amended.2.1 [0, 0] 1 1 (by simp) rfl
    simpa using h

end Kermit
